import Mathlib

/-!
# Verification of the supabase-reactive synchronization core

A shallow embedding of `lib/reactive.js` from
`@momsfriendlydevco/supabase-reactive`.  JSON-compatible data trees are
modelled as association lists of string keys; the session state (`$meta`,
the local tree, the realtime-channel count and the pending upsert promise)
is passed explicitly, and each `$`-prefixed operation of the source becomes
a pure Lean function on that state.  Operations that can `throw` return
`Except (Err × Session) Session`; the `Session` carried by the `error`
constructor is the state of the session at the moment of the throw, so
frame conditions on failure are provable.
-/

namespace SupabaseReactive

/-- JSON-compatible values as seen by the library: scalars, arrays and
plain objects, plus `vOther` for non-POJO slush (functions, class
instances, proxies) that `$toObject` strips.  `vNull` is JS `null`. -/
inductive Value : Type where
  | vNull : Value
  | vStr : String → Value
  | vNum : Int → Value
  | vBool : Bool → Value
  | vArr : List Value → Value
  | vObj : List (String × Value) → Value
  | vOther : Value
deriving Repr

/-- A JS plain object: an association list from string keys to values,
in property-insertion order. -/
abbrev Fields := List (String × Value)

/-- Whether object `fs` has an own enumerable property named `k`. -/
def hasKey (fs : Fields) (k : String) : Bool :=
  fs.any (fun p => p.1 == k)

/-- `Object.assign(old, data)`: each key of `data`, in order, is written
onto `old` — existing keys keep their position and receive the new value,
fresh keys are appended. -/
def assignOne (old : Fields) (kv : String × Value) : Fields :=
  if hasKey old kv.1
    then old.map (fun p => if p.1 == kv.1 then kv else p)
    else old ++ [kv]

def objAssign (old data : Fields) : Fields :=
  data.foldl assignOne old

/-- Errors thrown by the library (`throw new Error(...)` sites). -/
inductive Err : Type where
  | reentrancy : Err
  | unsupported : Err
  | pathParse : Err
  | config : Err
  | network : Err
deriving Repr, DecidableEq

/-- The `$meta` object of a session (`reactives.$meta` in the source):
`timestamp`/`version` are `null` (`none`) until populated, `isUpdating`
is the write lock, `watcher` records whether a local Vue watcher is
registered (`$meta.watcher` handle present). -/
structure Meta : Type where
  id : String
  timestamp : Option Int
  version : Option Int
  isUpdating : Bool
  watcher : Bool
deriving Repr, DecidableEq

/-- The whole mutable state of one reactive session: the local data tree
(enumerable data keys only; the `$`-prefixed utilities are attached
non-enumerably and are not part of it), the `$meta` record, the number of
realtime channels opened by `$subscribe(true)`, and the
`$touchLocal.promise` slot (`none` when no local write was ever issued;
`some r` records the settled outcome of the last upsert). -/
structure Session : Type where
  tree : Fields
  meta : Meta
  subscriptions : Nat
  pendingWrite : Option (Except Err Unit)
deriving Repr

/-- The behavioural settings the synchronization core reads:
`versionColumn` is `true` when a version column name is configured
(truthy `settings.versionColumn`). -/
structure Settings : Type where
  isArray : Bool
  read : Bool
  watch : Bool
  write : Bool
  versionColumn : Bool
deriving Repr, DecidableEq

/-- Options of `$set` with their source defaults
(`markUpdating:true, updateDelay:1000, removeKeys:true, timestamp:null,
version:null`).  `timestamp`/`version` are `none` for the JS `null`
default. -/
structure SetOptions : Type where
  markUpdating : Bool := true
  removeKeys : Bool := true
  timestamp : Option Int := none
  version : Option Int := none
deriving Repr, DecidableEq

/-- JS truthiness of the `options.version` number in
`if (options.version) ...`: `null`/`undefined` and `0` are falsy. -/
def vTruthy : Option Int → Bool
  | none => false
  | some v => v != 0

/-- `$set(data, options)`.  Throws `ReentrancyError` when `markUpdating`
finds the lock already held (before any mutation, so the error carries the
unchanged session).  Otherwise assigns the keys of `data`, optionally
deletes local keys absent from `data`, and updates
`$meta.timestamp`/`$meta.version` when the options carry truthy values.
The write lock is taken and — after the tick + settle delay — released
again, so the final `isUpdating` equals the incoming one. -/
def setOp (s : Session) (data : Fields) (o : SetOptions) :
    Except (Err × Session) Session :=
  if o.markUpdating && s.meta.isUpdating then
    .error (.reentrancy, s)
  else
    let tree1 := objAssign s.tree data
    let tree2 := if o.removeKeys then tree1.filter (fun p => hasKey data p.1) else tree1
    let m1 := if o.timestamp.isSome then
        { s.meta with timestamp := o.timestamp } else s.meta
    let m2 := if vTruthy o.version then
        { m1 with version := o.version } else m1
    .ok { s with tree := tree2, meta := m2 }

/-- The key test of `$toObject`'s customizer, `/^[$\_]/.test(k)`:
keys whose first character is one of the reserved markers. -/
def reservedKey (k : String) : Bool :=
  match k.data with
  | [] => false
  | c :: _ => c == '$' || c == '_'

/-- The type test of `$toObject`'s customizer:
`['string','number','boolean'].includes(typeof v) || Array.isArray(v) ||
isPlainObject(v)`.  JS `null` fails it (its `typeof` is `'object'`), but
the customizer then replaces it with `null`, which coincides. -/
def typeOk : Value → Bool
  | .vStr _ => true
  | .vNum _ => true
  | .vBool _ => true
  | .vArr _ => true
  | .vObj _ => true
  | .vNull => false
  | .vOther => false

mutual

/-- `cloneDeepWith`'s behaviour under the `$toObject` customizer, on a
value whose own key already passed the check: scalars are copied, arrays
and plain objects are cloned recursively. -/
def cloneVal : Value → Value
  | .vNull => .vNull
  | .vStr s => .vStr s
  | .vNum n => .vNum n
  | .vBool b => .vBool b
  | .vArr xs => .vArr (cloneArr xs)
  | .vObj fs => .vObj (cloneFields fs)
  | .vOther => .vNull

/-- Array elements: the customizer sees the numeric index as the key,
which never starts with a reserved marker, so only the type test applies;
failures are replaced by `null` in place. -/
def cloneArr : List Value → List Value
  | [] => []
  | v :: vs => (if typeOk v then cloneVal v else .vNull) :: cloneArr vs

/-- Object properties: a key starting with `$`/`_`, or a value failing
the type test, makes the customizer return `null` — the key is KEPT and
its cloned value becomes `null`. -/
def cloneFields : Fields → Fields
  | [] => []
  | (k, v) :: fs =>
      (k, if !reservedKey k && typeOk v then cloneVal v else .vNull) :: cloneFields fs

end

/-- `$toObject()`: clone the (plain-object) reactive tree through the
customizer. -/
def toObject (tree : Fields) : Fields :=
  cloneFields tree

/-- The record handed to `supabase.from(table).upsert({...})` by
`$touchLocal`. -/
structure UpsertRecord : Type where
  id : String
  data : Fields
  timestamp : Int
  version : Option Int
deriving Repr

/-- Observable side effects of one `$touchLocal` invocation: whether the
`onChange` callback ran, and the upsert payload issued (if any). -/
structure LocalEffects : Type where
  onChangeCalled : Bool
  upsert : Option UpsertRecord
deriving Repr

/-- JS numeric coercion of `$meta.version` in `$meta.version++` and in
`($meta.version ?? 0) + 1`: `null` counts as `0`. -/
def jsNum : Option Int → Int
  | none => 0
  | some v => v

/-- `$touchLocal()`, the local-write path, at dispatch time `now` and
with `netRes` the eventual settled outcome of the upsert network call
(awaited at the end of the function; a rejection propagates after the
optimistic `$meta` advance, which is not rolled back).
Returns the session outcome paired with the observable effects. -/
def touchLocal (cfg : Settings) (s : Session) (now : Int)
    (netRes : Except Err Unit) :
    (Except (Err × Session) Session) × LocalEffects :=
  if s.meta.isUpdating then
    (.ok s, ⟨false, none⟩)
  else
    let payload := toObject s.tree
    let payloadVersion : Int := jsNum s.meta.version + 1
    if cfg.isArray then
      (.error (.unsupported, s), ⟨false, none⟩)
    else
      let m := { s.meta with
        timestamp := some now,
        version := if cfg.versionColumn then some (jsNum s.meta.version + 1)
                   else s.meta.version }
      let upRec : UpsertRecord :=
        ⟨s.meta.id, payload, now,
          if cfg.versionColumn then some payloadVersion else none⟩
      let s' : Session := { s with meta := m, pendingWrite := some netRes }
      match netRes with
      | .ok _ => (.ok s', ⟨true, some upRec⟩)
      | .error e => (.error (e, s'), ⟨true, some upRec⟩)

/-- A realtime `postgres_changes` event as received by `$touchRemote`:
`hasNew` is the presence of `data.new`; `newData`, `newVersion` and
`newTimestamp` are the projected columns of the new row (`newVersion` is
`none` when the event does not carry the version column). -/
structure RemoteEvent : Type where
  hasNew : Bool
  newData : Fields
  newVersion : Option Int
  newTimestamp : Int
deriving Repr

/-- The JS comparison `dataVersion <= $meta.version` of the version
guard: an `undefined` left side makes the comparison false; a `null`
right side coerces to `0`. -/
def jsLeVersion : Option Int → Option Int → Bool
  | none, _ => false
  | some v, none => v ≤ 0
  | some v, some m => v ≤ m

/-- The JS guard `$meta.timestamp && dataTimestamp <= $meta.timestamp`:
a `null` local timestamp is falsy (a `Date` is always truthy). -/
def tsStale (localTs : Option Int) (remoteTs : Int) : Bool :=
  match localTs with
  | none => false
  | some t => remoteTs ≤ t

/-- `$touchRemote(data)`, the remote-notification handler
(ConflictResolver): ignore events without a payload; reject when the
version guard (only with a version column configured) or the timestamp
guard says local state is at least as fresh; otherwise apply the payload
via `$set` with `removeKeys:true` and the event's timestamp/version. -/
def touchRemote (cfg : Settings) (s : Session) (ev : RemoteEvent) :
    Except (Err × Session) Session :=
  if !ev.hasNew then .ok s
  else if cfg.versionColumn && jsLeVersion ev.newVersion s.meta.version then .ok s
  else if tsStale s.meta.timestamp ev.newTimestamp then .ok s
  else
    setOp s ev.newData
      { removeKeys := true,
        timestamp := some ev.newTimestamp,
        version := if cfg.versionColumn then ev.newVersion else none }

/-- A row returned by `$getQuery()` for a single-record session,
projected to the configured columns; each column value may be SQL `NULL`
(`none`). -/
structure Row : Type where
  rowData : Option Fields
  rowTimestamp : Option Int
  rowVersion : Option Int
deriving Repr

/-- Which of the two read callbacks fired during `$read`. -/
inductive ReadCb : Type where
  | cbInit : ReadCb
  | cbRead : ReadCb
deriving Repr, DecidableEq

/-- `$read(options)` for a single-record (non-array) session, on query
result `row` (`none` when no row matched).  Derives
`dataVal = data?.[dataColumn] || {}` and the timestamp/version columns;
on the very first read (`$meta.version === null`) sets `$meta.version = 0`
and fires `onInit`, else fires `onRead`; then applies the snapshot via
`$set` with `removeKeys = !force`. -/
def readOp (cfg : Settings) (s : Session) (row : Option Row) (force : Bool) :
    Except (Err × Session) (Session × ReadCb) :=
  let dataVal : Fields := (row.bind (·.rowData)).getD []
  let dataTimestamp : Option Int := row.bind (·.rowTimestamp)
  let dataVersion : Option Int :=
    if cfg.versionColumn then row.bind (·.rowVersion) else none
  let first := s.meta.version.isNone
  let s1 : Session :=
    if first then { s with meta := { s.meta with version := some 0 } } else s
  let cb := if first then ReadCb.cbInit else ReadCb.cbRead
  match setOp s1 dataVal
      { timestamp := dataTimestamp, version := dataVersion,
        removeKeys := !force } with
  | .ok s2 => .ok (s2, cb)
  | .error e => .error e

/-- `$watch(isWatching)`: a no-op when already in the requested state,
otherwise registers (or tears down) the local deep watcher. -/
def watchOp (s : Session) (isWatching : Bool) : Session :=
  if isWatching == s.meta.watcher then s
  else { s with meta := { s.meta with watcher := isWatching } }

/-- `$subscribe(isSubscribed)`: subscribing opens a fresh realtime
channel; unsubscribing is a no-op in the source
(`TODO: Unsub from remote watchers is not yet supported`), so the channel
count never decreases. -/
def subscribeOp (s : Session) (isSubscribed : Bool) : Session :=
  if isSubscribed then { s with subscriptions := s.subscriptions + 1 } else s

/-- `$init()`: throws `ReentrancyError` when `$meta.timestamp` is truthy
(already populated), otherwise runs `$read` (if `settings.read`), `$watch`
(if `settings.watch`) and `$subscribe` (if `settings.write`) in order. -/
def initOp (cfg : Settings) (s : Session) (row : Option Row) :
    Except (Err × Session) Session :=
  if s.meta.timestamp.isSome then .error (.reentrancy, s)
  else
    match (if cfg.read then (readOp cfg s row false).map (·.1) else .ok s) with
    | .error e => .error e
    | .ok s1 =>
        let s2 := if cfg.watch then watchOp s1 true else s1
        let s3 := if cfg.write then subscribeOp s2 true else s2
        .ok s3

/-- `$destroy()`: fires `onDestroy` (side effect only) then runs
`$watch(false)` and `$subscribe(false)`. -/
def destroyOp (s : Session) : Session :=
  subscribeOp (watchOp s false) false

/-- `$flush(delay)`: `Promise.all([$touchLocal.promise, $tick(delay)])`.
When no local write was ever issued the promise slot is `undefined`,
which `Promise.all` treats as an already-settled value, so the flush
resolves; otherwise the flush settles like the stored write. -/
def flushOp (s : Session) : Except Err Unit :=
  match s.pendingWrite with
  | none => .ok ()
  | some r => r

/-- Delivery of a local mutation burst to the watcher installed by
`$watch`: the callback (`$touchLocal`, possibly debounced) runs only
while a watcher is registered. -/
def dispatchLocal (cfg : Settings) (s : Session) (now : Int)
    (netRes : Except Err Unit) :
    (Except (Err × Session) Session) × LocalEffects :=
  if s.meta.watcher then touchLocal cfg s now netRes
  else (.ok s, ⟨false, none⟩)

/-- Delivery of a realtime `UPDATE` event: the channel calls
`$touchRemote` as long as at least one subscription is open. -/
def dispatchRemote (cfg : Settings) (s : Session) (ev : RemoteEvent) :
    Except (Err × Session) Session :=
  if s.subscriptions > 0 then touchRemote cfg s ev
  else .ok s

/-- Property read `obj[k]` on a plain object: the value at the first
(equivalently, with unique keys, the only) entry named `k`. -/
def jsGet (fs : Fields) (k : String) : Option Value :=
  match fs with
  | [] => none
  | p :: rest => if p.1 == k then some p.2 else jsGet rest k

/-- Order on `$meta.version` values used to state monotonicity: from an
unset (`null`) version any move is allowed; a set version may never be
lost nor decreased. -/
def verLe : Option Int → Option Int → Prop
  | none, _ => True
  | some _, none => False
  | some m, some m' => m ≤ m'

/-- Whether a value is the JS `null`. -/
def isNullV : Value → Bool
  | .vNull => true
  | _ => false

mutual

/-- Deep check that reserved-marker keys only ever carry `null`. -/
def reservedNulled : Value → Bool
  | .vArr xs => reservedNulledArr xs
  | .vObj fs => reservedNulledFields fs
  | _ => true

def reservedNulledArr : List Value → Bool
  | [] => true
  | v :: vs => reservedNulled v && reservedNulledArr vs

def reservedNulledFields : Fields → Bool
  | [] => true
  | (k, v) :: fs =>
      (if reservedKey k then isNullV v else reservedNulled v)
        && reservedNulledFields fs

end

/-- Whether an operation settled without throwing. -/
def isOkResult {ε α : Type} : Except ε α → Bool
  | .ok _ => true
  | .error _ => false

/-- The session state after the ConflictResolver accepts event `ev`: the
result of the `$set(data.new[dataColumn], {removeKeys: true, timestamp,
version?})` call inside `$touchRemote`, for a session whose write lock is
free. -/
def remoteApplied (cfg : Settings) (s : Session) (ev : RemoteEvent) :
    Session :=
  { s with
    tree := (objAssign s.tree ev.newData).filter
      (fun p => hasKey ev.newData p.1),
    meta := { s.meta with
      timestamp := some ev.newTimestamp,
      version := if cfg.versionColumn && vTruthy ev.newVersion
                 then ev.newVersion else s.meta.version } }

/-! ## Association-list lemmas shared by the claim theorems -/

theorem hasKey_nil (k : String) : hasKey ([] : Fields) k = false := rfl

theorem hasKey_cons (p : String × Value) (fs : Fields) (k : String) :
    hasKey (p :: fs) k = ((p.1 == k) || hasKey fs k) := by
  simp [hasKey]

theorem hasKey_append (l1 l2 : Fields) (k : String) :
    hasKey (l1 ++ l2) k = (hasKey l1 k || hasKey l2 k) := by
  simp [hasKey]

theorem jsGet_append (l1 l2 : Fields) (k : String) :
    jsGet (l1 ++ l2) k
      = match jsGet l1 k with
        | some v => some v
        | none => jsGet l2 k := by
  induction l1 with
  | nil => simp [jsGet]
  | cons p rest ih =>
    by_cases hp : p.1 = k
    · simp [jsGet, hp]
    · simp [jsGet, hp, ih]

theorem jsGet_none_of_not_hasKey (l : Fields) (k : String)
    (h : hasKey l k = false) : jsGet l k = none := by
  induction l with
  | nil => rfl
  | cons p rest ih =>
    rw [hasKey_cons] at h
    have hp : (p.1 == k) = false := by
      cases hb : (p.1 == k) <;> simp [hb] at h ⊢
    have hr : hasKey rest k = false := by
      cases hb : hasKey rest k <;> simp [hb, hp] at h ⊢
    simp [jsGet, hp, ih hr]

theorem hasKey_mapSet (old : Fields) (kv : String × Value) (k : String) :
    hasKey (old.map fun p => if p.1 == kv.1 then kv else p) k
      = hasKey old k := by
  induction old with
  | nil => rfl
  | cons p rest ih =>
    simp only [List.map_cons, hasKey_cons, ih]
    by_cases hp : p.1 = kv.1
    · simp [hp]
    · simp [hp]

theorem jsGet_mapSet_eq (old : Fields) (kv : String × Value)
    (h : hasKey old kv.1 = true) :
    jsGet (old.map fun p => if p.1 == kv.1 then kv else p) kv.1
      = some kv.2 := by
  induction old with
  | nil => simp [hasKey] at h
  | cons p rest ih =>
    by_cases hp : p.1 = kv.1
    · simp [jsGet, hp]
    · rw [hasKey_cons] at h
      have hr : hasKey rest kv.1 = true := by
        rcases Bool.or_eq_true_iff.mp h with h1 | h1
        · exact absurd (eq_of_beq h1) hp
        · exact h1
      simpa [jsGet, hp] using ih hr

theorem jsGet_mapSet_ne (old : Fields) (kv : String × Value) (k : String)
    (hk : ¬ kv.1 = k) :
    jsGet (old.map fun p => if p.1 == kv.1 then kv else p) k
      = jsGet old k := by
  induction old with
  | nil => rfl
  | cons p rest ih =>
    have hk2 : ¬ k = kv.1 := fun hcon => hk hcon.symm
    by_cases hp : p.1 = kv.1
    · have hpk : ¬ p.1 = k := fun hcon => hk (hp ▸ hcon)
      simpa [jsGet, hp, hk, hpk] using ih
    · by_cases hpk : p.1 = k
      · simp [jsGet, hp, hpk, hk2]
      · simpa [jsGet, hp, hpk] using ih

theorem hasKey_assignOne (old : Fields) (kv : String × Value) (k : String) :
    hasKey (assignOne old kv) k = (hasKey old k || (kv.1 == k)) := by
  unfold assignOne
  by_cases h : hasKey old kv.1
  · rw [if_pos h, hasKey_mapSet]
    by_cases hk : kv.1 = k
    · rw [← hk] at *
      simp [h]
    · simp [hk]
  · rw [if_neg h, hasKey_append, hasKey_cons, hasKey_nil]
    simp

theorem hasKey_objAssign (old data : Fields) (k : String) :
    hasKey (objAssign old data) k = (hasKey old k || hasKey data k) := by
  induction data generalizing old with
  | nil => simp [objAssign, hasKey]
  | cons kv rest ih =>
    show hasKey (objAssign (assignOne old kv) rest) k = _
    rw [ih (assignOne old kv), hasKey_assignOne, hasKey_cons]
    simp [Bool.or_assoc]

theorem hasKey_filterKeys (l : Fields) (f : String → Bool) (k : String) :
    hasKey (l.filter fun p => f p.1) k = (hasKey l k && f k) := by
  induction l with
  | nil => simp [hasKey]
  | cons p rest ih =>
    by_cases hp : p.1 = k
    · subst hp
      by_cases hf : f p.1 = true
      · simp [List.filter_cons, hasKey_cons, hf, ih]
      · have hf2 : f p.1 = false := by
          cases hb : f p.1 <;> simp [hb] at hf ⊢
        simp [List.filter_cons, hasKey_cons, hf2, ih]
    · have hbk : (p.1 == k) = false := by simp [hp]
      by_cases hf2 : f p.1 = true
      · simp [List.filter_cons, hasKey_cons, hbk, hf2, ih]
      · simp [List.filter_cons, hasKey_cons, hbk, hf2, ih]

theorem jsGet_assignOne (old : Fields) (kv : String × Value) (k : String) :
    jsGet (assignOne old kv) k
      = if kv.1 == k then some kv.2 else jsGet old k := by
  unfold assignOne
  by_cases h : hasKey old kv.1
  · rw [if_pos h]
    by_cases hk : kv.1 = k
    · subst hk
      rw [jsGet_mapSet_eq old kv h]
      simp
    · rw [jsGet_mapSet_ne old kv k hk]
      simp [hk]
  · rw [if_neg h, jsGet_append]
    by_cases hk : kv.1 = k
    · subst hk
      rw [jsGet_none_of_not_hasKey old kv.1 (by simpa using h)]
      simp [jsGet]
    · have hbk : (kv.1 == k) = false := by simp [hk]
      cases hg : jsGet old k <;> simp [jsGet, hbk, hg]

theorem jsGet_objAssign (old data : Fields) (k : String)
    (hnd : (data.map Prod.fst).Nodup) :
    jsGet (objAssign old data) k
      = if hasKey data k then jsGet data k else jsGet old k := by
  induction data generalizing old with
  | nil => simp [objAssign, hasKey, jsGet]
  | cons kv rest ih =>
    simp only [List.map_cons, List.nodup_cons] at hnd
    show jsGet (objAssign (assignOne old kv) rest) k = _
    rw [ih (assignOne old kv) hnd.2, jsGet_assignOne, hasKey_cons]
    by_cases hk : kv.1 = k
    · have hrk : hasKey rest k = false := by
        cases hb : hasKey rest k
        · rfl
        · exfalso
          apply hnd.1
          rcases List.any_eq_true.mp hb with ⟨p, hmem, hbeq⟩
          rw [hk]
          rw [← eq_of_beq hbeq]
          exact List.mem_map_of_mem Prod.fst hmem
      simp [hrk, hk, jsGet]
    · simp only [show (kv.1 == k) = false by simp [hk], Bool.false_or,
        if_false]
      by_cases hr : hasKey rest k = true
      · simp [hr, jsGet, hk]
      · simp only [Bool.not_eq_true] at hr
        simp [hr, jsGet, hk]

theorem jsGet_filterKeys (l : Fields) (f : String → Bool) (k : String) :
    jsGet (l.filter fun p => f p.1) k
      = if f k then jsGet l k else none := by
  induction l with
  | nil => simp [jsGet]
  | cons p rest ih =>
    by_cases hp : p.1 = k
    · by_cases hf : f k
      · simp [List.filter_cons, hp, hf, jsGet, ih]
      · simp [List.filter_cons, hp, hf, jsGet, ih]
    · by_cases hf2 : f p.1 = true <;> simp [List.filter_cons, hp, hf2, jsGet, ih]

mutual

theorem cloneVal_reservedNulled (v : Value) :
    reservedNulled (cloneVal v) = true := by
  cases v with
  | vNull => rfl
  | vStr s => rfl
  | vNum n => rfl
  | vBool b => rfl
  | vOther => rfl
  | vArr xs =>
      have h := cloneArr_reservedNulled xs
      simp [cloneVal, reservedNulled, h]
  | vObj fs =>
      have h := cloneFields_reservedNulled fs
      simp [cloneVal, reservedNulled, h]

theorem cloneArr_reservedNulled (xs : List Value) :
    reservedNulledArr (cloneArr xs) = true := by
  cases xs with
  | nil => rfl
  | cons v vs =>
      have h1 := cloneVal_reservedNulled v
      have h2 := cloneArr_reservedNulled vs
      by_cases ht : typeOk v = true
      · simp [cloneArr, reservedNulledArr, ht, h1, h2]
      · simp [cloneArr, reservedNulledArr, ht, h2, reservedNulled]

theorem cloneFields_reservedNulled (fs : Fields) :
    reservedNulledFields (cloneFields fs) = true := by
  cases fs with
  | nil => rfl
  | cons p rest =>
      obtain ⟨k, v⟩ := p
      have h2 := cloneFields_reservedNulled rest
      by_cases hr : reservedKey k = true
      · simp [cloneFields, reservedNulledFields, hr, isNullV, h2]
      · have h1 := cloneVal_reservedNulled v
        by_cases ht : typeOk v = true
        · simp [cloneFields, reservedNulledFields, hr, ht, h1, h2]
        · simp [cloneFields, reservedNulledFields, hr, ht, h2,
            reservedNulled, isNullV]

end

theorem verLe_refl (a : Option Int) : verLe a a := by
  cases a with
  | none => trivial
  | some m => exact le_refl m

/-! ## Claim theorems -/

/-- C2: for a session without a version column whose `$meta.timestamp` is
set, a remote change event whose timestamp does not exceed the local one
is rejected by `$touchRemote` with no state mutation at all: the handler
returns the session unchanged (local tree and meta included). -/
theorem c2_timestamp_stale_rejected (cfg : Settings) (s : Session)
    (ev : RemoteEvent) (t : Int)
    (hv : cfg.versionColumn = false)
    (ht : s.meta.timestamp = some t)
    (hle : ev.newTimestamp ≤ t) :
    touchRemote cfg s ev = .ok s := by
  unfold touchRemote
  by_cases hn : ev.hasNew
  · simp [hn, hv, tsStale, ht, hle]
  · simp [hn]

/-- Witness for C2 at a concrete session and event. -/
theorem c2_timestamp_stale_rejected_witness :
    touchRemote ⟨false, true, true, true, false⟩
      ⟨[("a", Value.vNum 1)], ⟨"id1", some 100, none, false, false⟩, 0, none⟩
      ⟨true, [("b", Value.vNum 2)], none, 100⟩
    = Except.ok
      ⟨[("a", Value.vNum 1)], ⟨"id1", some 100, none, false, false⟩, 0, none⟩ :=
  c2_timestamp_stale_rejected _ _ _ 100 rfl rfl (by decide)

/-- C5: `$set` with `markUpdating` (the default) on a session already
marked updating throws `ReentrancyError` before any assignment: the error
carries the session exactly as it was (tree, `$meta.timestamp` and
`$meta.version` unchanged). -/
theorem c5_set_reentrancy (s : Session) (data : Fields) (o : SetOptions)
    (hm : o.markUpdating = true) (hu : s.meta.isUpdating = true) :
    setOp s data o = .error (.reentrancy, s) := by
  unfold setOp
  simp [hm, hu]

/-- Witness for C5 at a concrete updating session. -/
theorem c5_set_reentrancy_witness :
    setOp ⟨[("a", Value.vNum 1)], ⟨"id1", some 3, some 7, true, false⟩, 0, none⟩
      [("b", Value.vNum 2)] {}
    = Except.error (Err.reentrancy,
        ⟨[("a", Value.vNum 1)], ⟨"id1", some 3, some 7, true, false⟩, 0, none⟩) :=
  c5_set_reentrancy _ _ _ rfl rfl

/-- C6: while `$meta.isUpdating` is true, `$touchLocal` returns
immediately as a no-op: the session is unchanged, the `onChange` callback
is not invoked and no upsert is issued. -/
theorem c6_touchlocal_noop_while_updating (cfg : Settings) (s : Session)
    (now : Int) (netRes : Except Err Unit)
    (hu : s.meta.isUpdating = true) :
    touchLocal cfg s now netRes = (.ok s, ⟨false, none⟩) := by
  unfold touchLocal
  simp [hu]

/-- Witness for C6 at a concrete updating session. -/
theorem c6_touchlocal_noop_while_updating_witness :
    touchLocal ⟨false, true, true, true, true⟩
      ⟨[("a", Value.vNum 1)], ⟨"id1", some 3, some 7, true, true⟩, 1, none⟩
      99 (.ok ())
    = (Except.ok
        ⟨[("a", Value.vNum 1)], ⟨"id1", some 3, some 7, true, true⟩, 1, none⟩,
       ⟨false, none⟩) :=
  c6_touchlocal_noop_while_updating _ _ _ _ rfl

/-- C10: on a session where no local write was ever issued the pending
promise slot is empty, and `$flush` resolves successfully (the absent
promise behaves as an already-settled value under `Promise.all`). -/
theorem c10_flush_without_pending (s : Session)
    (h : s.pendingWrite = none) :
    flushOp s = .ok () := by
  unfold flushOp
  rw [h]

/-- Witness for C10 at a concrete fresh session. -/
theorem c10_flush_without_pending_witness :
    flushOp ⟨[("a", Value.vNum 1)], ⟨"id1", some 3, some 7, false, true⟩, 1, none⟩
    = .ok () :=
  c10_flush_without_pending _ rfl

/-- C4: `$set(S, {removeKeys:true})` leaves the local tree with exactly
the keys of the snapshot `S`; `$set(S, {removeKeys:false})` assigns every
key of `S` (patch merge) while preserving each pre-existing local key
absent from `S`, both stated for a session whose write lock is free (the
default `markUpdating` path). -/
theorem c4_set_key_semantics (s : Session) (snap : Fields)
    (hu : s.meta.isUpdating = false)
    (hnd : (snap.map Prod.fst).Nodup) :
    (∀ s1, setOp s snap { removeKeys := true } = .ok s1 →
        ∀ k, hasKey s1.tree k = hasKey snap k)
    ∧ (∀ s2, setOp s snap { removeKeys := false } = .ok s2 →
        (∀ k, hasKey snap k = true → jsGet s2.tree k = jsGet snap k)
        ∧ (∀ k, hasKey snap k = false → jsGet s2.tree k = jsGet s.tree k)
        ∧ (∀ k, hasKey s.tree k = true → hasKey s2.tree k = true)) := by
  constructor
  · intro s1 h1 k
    unfold setOp at h1
    simp [hu] at h1
    rw [← h1]
    rw [hasKey_filterKeys, hasKey_objAssign]
    cases hs : hasKey snap k <;> simp [hs]
  · intro s2 h2
    unfold setOp at h2
    simp [hu] at h2
    refine ⟨?_, ?_, ?_⟩
    · intro k hk
      rw [← h2]
      rw [jsGet_objAssign _ _ _ hnd]
      simp [hk]
    · intro k hk
      rw [← h2, jsGet_objAssign _ _ _ hnd]
      simp [hk]
    · intro k hk
      rw [← h2, hasKey_objAssign]
      simp [hk]

/-- Witness for C4: both replacement modes evaluated on a concrete
session and snapshot. -/
theorem c4_set_key_semantics_witness :
    hasKey [("b", Value.vNum 9), ("c", Value.vNum 3)] "a"
      = hasKey [("b", Value.vNum 9), ("c", Value.vNum 3)] "a"
    ∧ jsGet [("a", Value.vNum 1), ("b", Value.vNum 9), ("c", Value.vNum 3)] "a"
      = jsGet [("a", Value.vNum 1), ("b", Value.vNum 2)] "a" :=
  ⟨(c4_set_key_semantics
      ⟨[("a", Value.vNum 1), ("b", Value.vNum 2)],
        ⟨"i", none, none, false, false⟩, 0, none⟩
      [("b", Value.vNum 9), ("c", Value.vNum 3)] rfl (by decide)).1
      ⟨[("b", Value.vNum 9), ("c", Value.vNum 3)],
        ⟨"i", none, none, false, false⟩, 0, none⟩ rfl "a",
   ((c4_set_key_semantics
      ⟨[("a", Value.vNum 1), ("b", Value.vNum 2)],
        ⟨"i", none, none, false, false⟩, 0, none⟩
      [("b", Value.vNum 9), ("c", Value.vNum 3)] rfl (by decide)).2
      ⟨[("a", Value.vNum 1), ("b", Value.vNum 9), ("c", Value.vNum 3)],
        ⟨"i", none, none, false, false⟩, 0, none⟩ rfl).2.1 "a" rfl⟩

/-- C1 counterexample: with versioning enabled, a remote event carrying
version `2 > 1 = $meta.version` is nevertheless rejected, because
`$touchRemote` always also runs the timestamp guard and here the event
timestamp `50` does not exceed the local `$meta.timestamp = 100`: the
session is returned unchanged and the payload key `a` is never applied.
This refutes the claimed `accept iff V_r > meta.version`. -/
theorem c1_counterexample :
    (1:Int) < 2
    ∧ touchRemote ⟨false, true, true, true, true⟩
        ⟨[], ⟨"id1", some 100, some 1, false, false⟩, 0, none⟩
        ⟨true, [("a", Value.vNum 1)], some 2, 50⟩
      = Except.ok ⟨[], ⟨"id1", some 100, some 1, false, false⟩, 0, none⟩ :=
  ⟨by decide, rfl⟩

/-- C1 (amended): with versioning enabled, a free write lock and a set
local version, `$touchRemote` accepts an incoming event carrying version
`dv` iff `dv > $meta.version` AND the timestamp guard also passes
(`$meta.timestamp` unset or exceeded by the event timestamp); on accept
it applies the payload through `$set` (full replace, timestamp adopted,
version adopted when non-zero), otherwise it rejects without mutating
state. -/
theorem c1_remote_accept_gate (cfg : Settings) (s : Session)
    (ev : RemoteEvent) (m dv : Int)
    (hv : cfg.versionColumn = true)
    (hu : s.meta.isUpdating = false)
    (hm : s.meta.version = some m)
    (hn : ev.hasNew = true)
    (hdv : ev.newVersion = some dv) :
    (m < dv ∧ tsStale s.meta.timestamp ev.newTimestamp = false →
      touchRemote cfg s ev = .ok (remoteApplied cfg s ev)
      ∧ (∀ k, hasKey (remoteApplied cfg s ev).tree k = hasKey ev.newData k)
      ∧ (remoteApplied cfg s ev).meta.timestamp = some ev.newTimestamp
      ∧ (dv ≠ 0 → (remoteApplied cfg s ev).meta.version = some dv))
    ∧ (¬ (m < dv ∧ tsStale s.meta.timestamp ev.newTimestamp = false) →
      touchRemote cfg s ev = .ok s) := by
  constructor
  · rintro ⟨hlt, hts⟩
    have hguard : (cfg.versionColumn && jsLeVersion ev.newVersion s.meta.version)
        = false := by
      rw [hv, hdv, hm]
      simp [jsLeVersion]
      omega
    refine ⟨?_, ?_, ?_, ?_⟩
    · unfold touchRemote
      rw [hn, hguard, hts]
      unfold setOp
      simp only [hu, Bool.and_false, Bool.false_eq_true, if_false]
      unfold remoteApplied
      simp only [hv, hdv, Bool.true_and]
      rw [hu]
      by_cases hvt : vTruthy (some dv) = true <;> simp [hvt]
    · intro k
      unfold remoteApplied
      rw [hasKey_filterKeys, hasKey_objAssign]
      cases hs : hasKey ev.newData k <;> simp [hs]
    · rfl
    · intro hdz
      unfold remoteApplied
      simp [hv, hdv, vTruthy, hdz]
  · intro hrej
    unfold touchRemote
    rw [hn]
    by_cases hlt : m < dv
    · have hts : tsStale s.meta.timestamp ev.newTimestamp = true := by
        rcases Bool.eq_false_or_eq_true (tsStale s.meta.timestamp ev.newTimestamp)
          with h0 | h0
        · exact h0
        · exact absurd ⟨hlt, h0⟩ hrej
      have hguard : (cfg.versionColumn && jsLeVersion ev.newVersion s.meta.version)
          = false := by
        rw [hv, hdv, hm]
        simp [jsLeVersion]
        omega
      rw [hguard, hts]
      rfl
    · have hguard : (cfg.versionColumn && jsLeVersion ev.newVersion s.meta.version)
          = true := by
        rw [hv, hdv, hm]
        simp [jsLeVersion]
        omega
      rw [hguard]
      rfl

/-- Witness for C1 (amended) at a concrete accepting event. -/
theorem c1_remote_accept_gate_witness :
    touchRemote ⟨false, true, true, true, true⟩
      ⟨[("old", Value.vNum 9)], ⟨"id1", some 10, some 1, false, false⟩, 0, none⟩
      ⟨true, [("a", Value.vNum 1)], some 2, 50⟩
    = Except.ok (remoteApplied ⟨false, true, true, true, true⟩
        ⟨[("old", Value.vNum 9)], ⟨"id1", some 10, some 1, false, false⟩, 0, none⟩
        ⟨true, [("a", Value.vNum 1)], some 2, 50⟩)
    ∧ hasKey (remoteApplied ⟨false, true, true, true, true⟩
        ⟨[("old", Value.vNum 9)], ⟨"id1", some 10, some 1, false, false⟩, 0, none⟩
        ⟨true, [("a", Value.vNum 1)], some 2, 50⟩).tree "old" = false :=
  ⟨((c1_remote_accept_gate _ _ _ 1 2 rfl rfl rfl rfl rfl).1
      ⟨by decide, by decide⟩).1,
   by
    have h := ((c1_remote_accept_gate
      ⟨false, true, true, true, true⟩
      ⟨[("old", Value.vNum 9)], ⟨"id1", some 10, some 1, false, false⟩, 0, none⟩
      ⟨true, [("a", Value.vNum 1)], some 2, 50⟩ 1 2 rfl rfl rfl rfl rfl).1
      ⟨by decide, by decide⟩).2.1 "old"
    rw [h]
    rfl⟩

/-- C3 counterexample: on a session configured with reading disabled the
first `$init` completes and returns the session unchanged (its
`$meta.timestamp` still `null`), so the second, identical `$init`
invocation returns `ok` as well instead of throwing the claimed
`ReentrancyError`: the double-call guard only tests `$meta.timestamp`
truthiness. -/
theorem c3_counterexample :
    initOp ⟨false, false, false, false, false⟩
      ⟨[], ⟨"id1", none, none, false, false⟩, 0, none⟩ none
    = Except.ok ⟨[], ⟨"id1", none, none, false, false⟩, 0, none⟩
    ∧ isOkResult (initOp ⟨false, false, false, false, false⟩
        ⟨[], ⟨"id1", none, none, false, false⟩, 0, none⟩ none) = true :=
  ⟨rfl, rfl⟩

/-- C3 (amended): a second `$init` throws `ReentrancyError` exactly when
the first one left `$meta.timestamp` set (a truthy timestamp obtained by
the initial read); when the timestamp is still `null` — reading disabled,
or the row carried no timestamp — `$init` does not throw and simply runs
again. -/
theorem c3_reinit_guard (cfg : Settings) (s : Session) (row : Option Row) :
    (s.meta.timestamp.isSome = true →
        initOp cfg s row = .error (.reentrancy, s))
    ∧ (s.meta.timestamp = none → s.meta.isUpdating = false →
        isOkResult (initOp cfg s row) = true) := by
  constructor
  · intro hts
    unfold initOp
    rw [hts]
    rfl
  · intro hts hu
    unfold initOp
    rw [hts]
    simp only [Option.isSome_none, Bool.false_eq_true, if_false]
    by_cases hr : cfg.read
    · unfold readOp setOp
      by_cases hfirst : s.meta.version.isNone
      · simp [hr, hu, hfirst, isOkResult, Except.map]
      · simp [hr, hu, hfirst, isOkResult, Except.map]
    · simp [hr, isOkResult]

/-- Witness for C3 (amended): the reentrancy branch on a session whose
timestamp is populated, and the no-throw branch on a fresh session with
reading enabled. -/
theorem c3_reinit_guard_witness :
    initOp ⟨false, true, true, true, false⟩
      ⟨[], ⟨"id1", some 5, some 0, false, false⟩, 0, none⟩ none
      = Except.error (Err.reentrancy,
          ⟨[], ⟨"id1", some 5, some 0, false, false⟩, 0, none⟩)
    ∧ isOkResult (initOp ⟨false, true, true, true, false⟩
        ⟨[], ⟨"id1", none, none, false, false⟩, 0, none⟩
        (some ⟨some [("a", Value.vNum 1)], some 9, none⟩)) = true :=
  ⟨(c3_reinit_guard _ _ _).1 rfl, (c3_reinit_guard _ _ _).2 rfl rfl⟩

/-- C7 counterexample: with versioning enabled, a `$read` on a session
whose optimistically advanced local version is `3` adopts the server
row's smaller version `2` unconditionally (via `$set`), so `meta.version`
decreases across a session operation, refuting global monotonicity. -/
theorem c7_counterexample :
    readOp ⟨false, true, true, true, true⟩
      ⟨[], ⟨"id1", some 5, some 3, false, false⟩, 0, none⟩
      (some ⟨some [], some 10, some 2⟩) false
    = Except.ok (⟨[], ⟨"id1", some 10, some 2, false, false⟩, 0, none⟩,
        ReadCb.cbRead)
    ∧ (2:Int) < 3 :=
  ⟨rfl, by decide⟩

/-- C7 (amended): with versioning enabled, `meta.version` is
monotonically non-decreasing across `$touchLocal` (which advances it by
exactly one on a non-suppressed, non-array write) and across
`$touchRemote` (acceptance requires a strictly larger event version);
it is set to `0` on the first successful read of an absent/empty row and
the first read fires `onInit`.  Monotonicity does NOT extend to `$read`,
which adopts the server row's version unconditionally (see the
counterexample). -/
theorem c7_version_monotone (cfg : Settings) (s : Session)
    (now : Int) (netRes : Except Err Unit) (ev : RemoteEvent)
    (row : Option Row)
    (hv : cfg.versionColumn = true) :
    (∀ s1 eff, touchLocal cfg s now netRes = (.ok s1, eff) →
        verLe s.meta.version s1.meta.version)
    ∧ (∀ e s1 eff, touchLocal cfg s now netRes = (.error (e, s1), eff) →
        verLe s.meta.version s1.meta.version)
    ∧ (s.meta.isUpdating = false → cfg.isArray = false →
        ∀ s1 eff, (touchLocal cfg s now netRes = (.ok s1, eff)
            ∨ ∃ e, touchLocal cfg s now netRes = (.error (e, s1), eff)) →
        s1.meta.version = some (jsNum s.meta.version + 1))
    ∧ (∀ s1, touchRemote cfg s ev = .ok s1 →
        verLe s.meta.version s1.meta.version)
    ∧ (∀ e s1, touchRemote cfg s ev = .error (e, s1) →
        verLe s.meta.version s1.meta.version)
    ∧ (s.meta.version = none →
        ∀ s1 cb, readOp cfg s row false = .ok (s1, cb) → cb = ReadCb.cbInit)
    ∧ (s.meta.version = none →
        ∀ s1 cb, readOp cfg s none false = .ok (s1, cb) →
        s1.meta.version = some 0) := by
  have hTL : ∀ s1 eff,
      (touchLocal cfg s now netRes = (.ok s1, eff)
        ∨ ∃ e, touchLocal cfg s now netRes = (.error (e, s1), eff)) →
      s1 = s ∨ s1.meta.version = some (jsNum s.meta.version + 1) := by
    intro s1 eff h
    unfold touchLocal at h
    by_cases hu : s.meta.isUpdating
    · rcases h with h | ⟨e, h⟩
      · simp [hu] at h
        exact Or.inl h.1.symm
      · simp [hu] at h
    · by_cases ha : cfg.isArray
      · rcases h with h | ⟨e, h⟩
        · simp [hu, ha] at h
        · simp [hu, ha] at h
          exact Or.inl h.1.2.symm
      · cases netRes with
        | ok u =>
            rcases h with h | ⟨e, h⟩
            · simp [hu, ha, hv] at h
              right
              rw [← h.1]
            · simp [hu, ha] at h
        | error e0 =>
            rcases h with h | ⟨e, h⟩
            · simp [hu, ha] at h
            · simp [hu, ha, hv] at h
              right
              rw [← h.1.2]
  have hVerStep : ∀ s1,
      s1 = s ∨ s1.meta.version = some (jsNum s.meta.version + 1) →
      verLe s.meta.version s1.meta.version := by
    intro s1 h
    rcases h with rfl | h
    · exact verLe_refl _
    · rw [h]
      cases hm : s.meta.version with
      | none => trivial
      | some m =>
          simp only [verLe, jsNum]
          omega
  refine ⟨?_, ?_, ?_, ?_, ?_, ?_, ?_⟩
  · intro s1 eff h
    exact hVerStep s1 (hTL s1 eff (Or.inl h))
  · intro e s1 eff h
    exact hVerStep s1 (hTL s1 eff (Or.inr ⟨e, h⟩))
  · intro hu ha s1 eff h
    unfold touchLocal at h
    cases netRes with
    | ok u =>
        rcases h with h | ⟨e, h⟩
        · simp [hu, ha, hv] at h
          rw [← h.1]
        · simp [hu, ha] at h
    | error e0 =>
        rcases h with h | ⟨e, h⟩
        · simp [hu, ha] at h
        · simp [hu, ha, hv] at h
          rw [← h.1.2]
  · intro s1 h
    unfold touchRemote at h
    by_cases hn : ev.hasNew
    · by_cases hg : (cfg.versionColumn && jsLeVersion ev.newVersion s.meta.version) = true
      · simp [hn, hg] at h
        rw [← h]
        exact verLe_refl _
      · by_cases hts : tsStale s.meta.timestamp ev.newTimestamp = true
        · simp [hn, hg, hts] at h
          rw [← h]
          exact verLe_refl _
        · simp only [hn, Bool.not_true, Bool.false_eq_true, if_false,
            hg, if_false, hts] at h
          unfold setOp at h
          by_cases hu : s.meta.isUpdating
          · simp [hu] at h
          · simp [hu] at h
            rw [← h]
            by_cases hvt : vTruthy (if cfg.versionColumn = true then ev.newVersion else none) = true
            · simp only [hvt, if_true]
              rw [hv] at hvt
              simp only [if_true] at hvt
              cases hd : ev.newVersion with
              | none => rw [hd] at hvt; simp [vTruthy] at hvt
              | some d =>
                  simp only [hv, if_true]
                  rw [hv, hd] at hg
                  simp only [Bool.true_and] at hg
                  cases hm : s.meta.version with
                  | none => trivial
                  | some m =>
                      rw [hm] at hg
                      simp [jsLeVersion] at hg
                      show m ≤ d
                      omega
            · simp only [hvt, if_false]
              simp
              exact verLe_refl _
    · simp [hn] at h
      rw [← h]
      exact verLe_refl _
  · intro e s1 h
    unfold touchRemote at h
    by_cases hn : ev.hasNew
    · by_cases hg : (cfg.versionColumn && jsLeVersion ev.newVersion s.meta.version) = true
      · simp [hn, hg] at h
      · by_cases hts : tsStale s.meta.timestamp ev.newTimestamp = true
        · simp [hn, hg, hts] at h
        · simp only [hn, Bool.not_true, Bool.false_eq_true, if_false,
            hg, if_false, hts] at h
          unfold setOp at h
          by_cases hu : s.meta.isUpdating
          · simp [hu] at h
            rw [← h.2]
            exact verLe_refl _
          · simp [hu] at h
    · simp [hn] at h
  · intro hvn s1 cb h
    unfold readOp at h
    have hfirst : s.meta.version.isNone = true := by simp [hvn]
    simp only [hfirst, if_true] at h
    split at h
    · simp at h
      exact h.2.symm
    · simp at h
  · intro hvn s1 cb h
    unfold readOp at h
    have hfirst : s.meta.version.isNone = true := by simp [hvn]
    simp only [hfirst, if_true] at h
    unfold setOp at h
    by_cases hu : s.meta.isUpdating
    · simp [hu] at h
    · simp [hu, vTruthy] at h
      rw [← h.1]

/-- Witness for C7 (amended): a concrete local write advances the
version from 4 to 5, a non-decreasing step. -/
theorem c7_version_monotone_witness :
    verLe (some 4) (some 5) :=
  (c7_version_monotone ⟨false, true, true, true, true⟩
    ⟨[], ⟨"i", some 1, some 4, false, false⟩, 0, none⟩ 9 (.ok ())
    ⟨true, [], some 7, 50⟩ none rfl).1
    ⟨[], ⟨"i", some 9, some 5, false, false⟩, 0, some (.ok ())⟩
    ⟨true, some ⟨"i", [], 9, some 5⟩⟩ rfl

/-- C8 counterexample: `$destroy` tears down the local watcher but
`$subscribe(false)` is an unimplemented no-op, so the realtime channel
stays open (`subscriptions` still 1) and a later remote `UPDATE` event
still reaches `$touchRemote`, which here accepts it and rewrites the
local tree — a callback firing after `destroy()`. -/
theorem c8_counterexample :
    (destroyOp ⟨[], ⟨"id1", some 10, none, false, true⟩, 1, none⟩).subscriptions = 1
    ∧ dispatchRemote ⟨false, true, true, true, false⟩
        (destroyOp ⟨[], ⟨"id1", some 10, none, false, true⟩, 1, none⟩)
        ⟨true, [("x", Value.vNum 1)], none, 50⟩
      = Except.ok ⟨[("x", Value.vNum 1)],
          ⟨"id1", some 50, none, false, false⟩, 1, none⟩ :=
  ⟨rfl, rfl⟩

/-- C8 (amended): after `$destroy()` the local watcher is gone and no
local-mutation callback fires any more (the dispatch is a strict no-op),
and `$destroy` does not shrink the realtime-channel count — remote
unsubscription being unimplemented, `$touchRemote` may still be invoked
by later remote events (see the counterexample). -/
theorem c8_destroy_stops_local_only (cfg : Settings) (s : Session)
    (now : Int) (netRes : Except Err Unit) :
    (destroyOp s).meta.watcher = false
    ∧ (destroyOp s).subscriptions = s.subscriptions
    ∧ dispatchLocal cfg (destroyOp s) now netRes
        = (.ok (destroyOp s), ⟨false, none⟩) := by
  unfold destroyOp subscribeOp watchOp dispatchLocal
  by_cases hw : s.meta.watcher <;> simp [hw]

/-- C9 counterexample: a local tree carrying the enumerable key
`_secret` produces an upsert payload that still CONTAINS the key
`_secret` — the serializer replaces the value of a reserved-marker key
with `null` but keeps the key — refuting the claim that no such key is
ever written to the remote store. -/
theorem c9_counterexample :
    (touchLocal ⟨false, true, true, true, false⟩
        ⟨[("_secret", Value.vNum 1), ("foo", Value.vStr "b")],
          ⟨"id1", none, none, false, true⟩, 1, none⟩ 7 (.ok ())).2.upsert
      = some ⟨"id1", [("_secret", Value.vNull), ("foo", Value.vStr "b")], 7, none⟩
    ∧ hasKey [("_secret", Value.vNull), ("foo", Value.vStr "b")] "_secret" = true :=
  ⟨by rfl, by rfl⟩

/-- C9 (amended): the upsert payload produced by the local-write path
never maps a reserved-marker key (`$`/`_` prefix) to anything but `null`,
at any nesting depth: `$toObject` nulls the values of reserved keys (and
of non-plain values) instead of removing the keys, so reserved keys can
appear in the payload but only carrying `null`. -/
theorem c9_upsert_reserved_nulled (cfg : Settings) (s : Session)
    (now : Int) (netRes : Except Err Unit) (r : UpsertRecord)
    (h : (touchLocal cfg s now netRes).2.upsert = some r) :
    reservedNulledFields r.data = true := by
  unfold touchLocal at h
  by_cases hu : s.meta.isUpdating
  · simp [hu] at h
  · by_cases ha : cfg.isArray
    · simp [hu, ha] at h
    · cases netRes with
      | ok u =>
          simp [hu, ha] at h
          rw [← h]
          exact cloneFields_reservedNulled s.tree
      | error e0 =>
          simp [hu, ha] at h
          rw [← h]
          exact cloneFields_reservedNulled s.tree

/-- Witness for C9 (amended): the concrete payload of the counterexample
write indeed carries only `null` under its reserved key. -/
theorem c9_upsert_reserved_nulled_witness :
    reservedNulledFields
      [("_secret", Value.vNull), ("foo", Value.vStr "b")] = true :=
  c9_upsert_reserved_nulled ⟨false, true, true, true, false⟩
    ⟨[("_secret", Value.vNum 1), ("foo", Value.vStr "b")],
      ⟨"id1", none, none, false, true⟩, 1, none⟩ 7 (.ok ())
    ⟨"id1", [("_secret", Value.vNull), ("foo", Value.vStr "b")], 7, none⟩ (by rfl)

end SupabaseReactive
